import Mathlib

/-!
# Verification of the maze `Cell` model (`src/cell.py`)

Shallow embedding of the `Cell` class: a cell of a rectangular maze grid
with a position, a visited flag, four directional walls in the fixed order
North, East, South, West, and a neighbor list precomputed at construction.

Modelling conventions:
* Python `assert` failures are modelled as `Except`/error results, using the
  error kinds named by the specification (`InvalidArgument`, `NotAdjacent`,
  `IndexOutOfRange`, `InvalidGeometry`).
* `remove_wall_between_cell` mutates two cell objects in place; it is
  embedded in state-passing style returning the (possibly partially updated)
  pair of cells together with an optional error, so that statements about
  "no mutation after a rejected call" are about the returned states.
* Python list assignment `l[i] = v` accepts negative indices (counting from
  the end) and raises `IndexError` outside `[-len, len)`; `pySetIndex`
  models exactly that.
* `set_walls` inspects its argument with `isinstance(x, bool)`, so its
  argument is modelled as a list of dynamically typed values (`PyObj`).
* Object identity (`self is another_cell`) is not a function of a cell's
  value; the embedding takes it as an explicit boolean argument
  `sameObject`, true exactly when the two references denote one object.
-/

set_option autoImplicit false

/-- The error kinds the specification assigns to the assertion failures of
`cell.py`. -/
inductive CellError
  | invalidGeometry
  | invalidArgument
  | notAdjacent
  | indexOutOfRange
deriving DecidableEq

/-- A dynamically typed Python value, as far as `set_walls` inspects one:
it only distinguishes booleans from everything else. -/
inductive PyObj
  | pybool (b : Bool)
  | pyint (n : Int)
  | pynone
deriving DecidableEq

/-- The `isinstance(x, bool)` test of `set_walls`. -/
def PyObj.isBool : PyObj → Bool
  | .pybool _ => true
  | _ => false

/-- Extract the boolean payload of a `PyObj`, if any. -/
def PyObj.asBool : PyObj → Option Bool
  | .pybool b => some b
  | _ => none

/-- The direction offsets `(Δrow, Δcol)` iterated by `__init__` and
`get_accessible_neighbors`, in the fixed order North, East, South, West. -/
def directionOffsets : List (Int × Int) := [(-1, 0), (0, 1), (1, 0), (0, -1)]

/-- The neighbor comprehension of `Cell.__init__`:
`[(row + y, column + x) for y, x in offsets if 0 <= column + x < width and
0 <= row + y < height]`. -/
def neighborList (row column width height : Int) : List (Int × Int) :=
  (directionOffsets.filter fun p =>
      decide (0 ≤ column + p.2 ∧ column + p.2 < width ∧
        0 ≤ row + p.1 ∧ row + p.1 < height)).map
    fun p => (row + p.1, column + p.2)

/-- The state of one `Cell` object. -/
structure Cell where
  row : Int
  col : Int
  neighbors : List (Int × Int)
  visited : Bool
  walls : List Bool
deriving DecidableEq

/-- `Cell.__init__(row, column, width, height)`: stores the coordinates,
precomputes the in-bounds neighbors, and starts unvisited with all four
walls present.  The source performs no validation of the geometry. -/
def Cell.init (row column width height : Int) : Cell :=
  { row := row
    col := column
    neighbors := neighborList row column width height
    visited := false
    walls := [true, true, true, true] }

/-- `make_visited`. -/
def Cell.make_visited (c : Cell) : Cell := { c with visited := true }

/-- `make_unvisited`. -/
def Cell.make_unvisited (c : Cell) : Cell := { c with visited := false }

/-- `get_column`. -/
def Cell.get_column (c : Cell) : Int := c.col

/-- `get_row`. -/
def Cell.get_row (c : Cell) : Int := c.row

/-- `is_visited`. -/
def Cell.is_visited (c : Cell) : Bool := c.visited

/-- `get_neighbors`. -/
def Cell.get_neighbors (c : Cell) : List (Int × Int) := c.neighbors

/-- `get_walls`. -/
def Cell.get_walls (c : Cell) : List Bool := c.walls

/-- The loop body of `get_accessible_neighbors`: walk the remaining offsets
with the running wall index `i`, appending `(row + y, col + x)` when it is in
the stored neighbor list and `walls[i]` is false. -/
def accessibleLoop (c : Cell) : List (Int × Int) → Nat → List (Int × Int)
  | [], _ => []
  | p :: rest, i =>
    (if (c.row + p.1, c.col + p.2) ∈ c.neighbors ∧ c.walls.getD i true = false
      then [(c.row + p.1, c.col + p.2)] else []) ++ accessibleLoop c rest (i + 1)

/-- `get_accessible_neighbors`: iterate the four offsets with a running
index `i` starting at 0; keep `(row + y, col + x)` when it is in the stored
neighbor list and `walls[i]` is false.  The class keeps `walls` at length 4,
so the `getD` default is never consulted on reachable states. -/
def Cell.get_accessible_neighbors (c : Cell) : List (Int × Int) :=
  accessibleLoop c directionOffsets 0

/-- `set_walls(l)`: asserts `len(l) == 4`, then that every element is a
boolean, then stores the list.  Both assertions precede the store, so a
rejected call returns an error with the cell untouched. -/
def Cell.set_walls (c : Cell) (l : List PyObj) : Except CellError Cell :=
  if l.length = 4 then
    if l.all PyObj.isBool then .ok { c with walls := l.filterMap PyObj.asBool }
    else .error .invalidArgument
  else .error .invalidArgument

/-- Python list element assignment `l[i] = v` on a list of booleans: a
negative index counts from the end; an index outside `[-len, len)` raises
`IndexError`. -/
def pySetIndex (l : List Bool) (i : Int) (v : Bool) : Except CellError (List Bool) :=
  let j : Int := if i < 0 then (l.length : Int) + i else i
  if 0 ≤ j ∧ j < (l.length : Int) then .ok (l.set j.toNat v)
  else .error .indexOutOfRange

/-- `remove_wall(i)`: `self.__walls[i] = False`, with Python list indexing
semantics. -/
def Cell.remove_wall (c : Cell) (i : Int) : Except CellError Cell :=
  match pySetIndex c.walls i false with
  | .ok w => .ok { c with walls := w }
  | .error e => .error e

/-- `remove_wall_between_cell(another_cell)`: asserts the argument is a
distinct object, asserts adjacency against the stored neighbor list, then
clears one wall on each cell by the index arithmetic on the coordinate
differences.  State-passing embedding: the result carries the optional
error and the final states of both cells, so partial mutation would be
observable in the returned pair. -/
def Cell.remove_wall_between_cell (c another_cell : Cell) (sameObject : Bool) :
    Option CellError × Cell × Cell :=
  if sameObject then (some .invalidArgument, c, another_cell)
  else if (another_cell.get_row, another_cell.get_column) ∈ c.neighbors then
    let col_diff := c.col - another_cell.get_column
    let row_diff := c.row - another_cell.get_row
    if col_diff ≠ 0 then
      match c.remove_wall (2 + col_diff) with
      | .error e => (some e, c, another_cell)
      | .ok c2 =>
        match another_cell.remove_wall (2 - col_diff) with
        | .error e => (some e, c2, another_cell)
        | .ok other2 => (none, c2, other2)
    else
      match c.remove_wall (1 - row_diff) with
      | .error e => (some e, c, another_cell)
      | .ok c2 =>
        match another_cell.remove_wall (1 + row_diff) with
        | .error e => (some e, c2, another_cell)
        | .ok other2 => (none, c2, other2)
  else (some .notAdjacent, c, another_cell)

/-- The wall index of `c` facing the coordinate `p`, by the direction order
North, East, South, West: `some i` when `p` is one grid step from `c`,
`none` otherwise. -/
def facingIndex (c : Cell) (p : Int × Int) : Option Nat :=
  if p.1 - c.row = -1 ∧ p.2 - c.col = 0 then some 0
  else if p.1 - c.row = 0 ∧ p.2 - c.col = 1 then some 1
  else if p.1 - c.row = 1 ∧ p.2 - c.col = 0 then some 2
  else if p.1 - c.row = 0 ∧ p.2 - c.col = -1 then some 3
  else none

/-- `facingIndex` with the out-of-range default 4 (no wall has index 4). -/
def facingIndexD (c : Cell) (p : Int × Int) : Nat := (facingIndex c p).getD 4

/-- The wall entry of `c` in the direction of coordinate `p` (true, a
present wall, when `p` is not one grid step away). -/
def Cell.wallToward (c : Cell) (p : Int × Int) : Bool :=
  match facingIndex c p with
  | some i => c.walls.getD i true
  | none => true

/-- Modelled from the spec: the defensive constructor `new(row, column,
width, height)` that the spec asks for, failing with `InvalidGeometry` when
`width ≤ 0`, `height ≤ 0`, or `(row, column)` is outside
`[0, height) × [0, width)`.  The source `__init__` has no such check; this
definition exists only to compare the spec's words with the source. -/
def Cell.newSpec (row column width height : Int) : Except CellError Cell :=
  if width ≤ 0 ∨ height ≤ 0 ∨ row < 0 ∨ height ≤ row ∨ column < 0 ∨ width ≤ column then
    .error .invalidGeometry
  else .ok (Cell.init row column width height)

/-- The wall index `remove_wall_between_cell` clears on `c` itself:
`2 + col_diff` when `col_diff ≠ 0`, else `1 - row_diff` (the source's index
arithmetic over `col_diff = c.col - other.col`, `row_diff = c.row - other.row`). -/
def selfWallIndex (c other : Cell) : Nat :=
  if c.col - other.col ≠ 0 then (2 + (c.col - other.col)).toNat
  else (1 - (c.row - other.row)).toNat

/-- The wall index `remove_wall_between_cell` clears on the other cell:
`2 - col_diff` when `col_diff ≠ 0`, else `1 + row_diff`. -/
def otherWallIndex (c other : Cell) : Nat :=
  if c.col - other.col ≠ 0 then (2 - (c.col - other.col)).toNat
  else (1 + (c.row - other.row)).toNat

/-- Geometry preservation between two cell states: row, column and the
precomputed neighbor list agree. -/
def geomUnchanged (c d : Cell) : Prop :=
  d.row = c.row ∧ d.col = c.col ∧ d.neighbors = c.neighbors

instance instDecidableEqExcept {ε α : Type} [DecidableEq ε] [DecidableEq α] :
    DecidableEq (Except ε α)
  | .error a, .error b =>
    if h : a = b then .isTrue (by rw [h]) else .isFalse (by simp [h])
  | .error _, .ok _ => .isFalse (by simp)
  | .ok _, .error _ => .isFalse (by simp)
  | .ok a, .ok b =>
    if h : a = b then .isTrue (by rw [h]) else .isFalse (by simp [h])

/-! ## Helper lemmas -/

lemma mem_neighborList_iff (r c w h y x : Int) (hyx : (y, x) ∈ directionOffsets) :
    ((r + y, c + x) ∈ neighborList r c w h) ↔
      (0 ≤ c + x ∧ c + x < w ∧ 0 ≤ r + y ∧ r + y < h) := by
  fin_cases hyx <;>
    simp [neighborList, directionOffsets, List.mem_filter, Prod.ext_iff]

lemma of_mem_neighborList {r c w h : Int} {p : Int × Int}
    (hp : p ∈ neighborList r c w h) :
    ((p.1 - r, p.2 - c) ∈ directionOffsets ∧ 0 ≤ p.2 ∧ p.2 < w ∧ 0 ≤ p.1 ∧ p.1 < h) := by
  simp [neighborList, directionOffsets, List.mem_filter, Prod.ext_iff] at hp
  simp [directionOffsets, Prod.ext_iff]
  omega

lemma pySetIndex_ok (l : List Bool) (i : Int) (v : Bool) (h4 : l.length = 4)
    (h0 : 0 ≤ i) (h1 : i < 4) :
    pySetIndex l i v = .ok (l.set i.toNat v) := by
  simp only [pySetIndex]
  split_ifs <;> first | rfl | (exfalso; omega)

lemma pySetIndex_neg (l : List Bool) (i : Int) (v : Bool) (h4 : l.length = 4)
    (h0 : -4 ≤ i) (h1 : i ≤ -1) :
    pySetIndex l i v = .ok (l.set (4 + i).toNat v) := by
  simp only [pySetIndex]
  have hj : ((l.length : Int) + i).toNat = (4 + i).toNat := by omega
  split_ifs <;> first | (rw [hj]) | (exfalso; omega)

lemma pySetIndex_err (l : List Bool) (i : Int) (v : Bool) (h4 : l.length = 4)
    (hout : i < -4 ∨ 4 ≤ i) :
    pySetIndex l i v = .error .indexOutOfRange := by
  simp only [pySetIndex]
  split_ifs <;> first | rfl | (exfalso; omega)

lemma remove_wall_ok {c : Cell} (h4 : c.walls.length = 4) {i : Int}
    (h0 : 0 ≤ i) (h1 : i < 4) :
    c.remove_wall i = .ok { c with walls := c.walls.set i.toNat false } := by
  rw [Cell.remove_wall, pySetIndex_ok c.walls i false h4 h0 h1]

lemma offsets_symm {A B : Cell}
    (hoff : (B.row - A.row, B.col - A.col) ∈ directionOffsets) :
    (A.row - B.row, A.col - B.col) ∈ directionOffsets := by
  simp only [directionOffsets, List.mem_cons, List.mem_singleton,
    List.not_mem_nil, or_false, Prod.mk.injEq] at hoff ⊢
  omega

lemma facingIndexD_lt4 {A : Cell} {p : Int × Int}
    (hoff : (p.1 - A.row, p.2 - A.col) ∈ directionOffsets) :
    facingIndexD A p < 4 := by
  simp only [directionOffsets, List.mem_cons, List.mem_singleton,
    List.not_mem_nil, or_false, Prod.mk.injEq] at hoff
  rcases hoff with ⟨hr, hc⟩ | ⟨hr, hc⟩ | ⟨hr, hc⟩ | ⟨hr, hc⟩ <;>
    simp [facingIndexD, facingIndex, hr, hc]

/-- Evaluation of `remove_wall_between_cell` on two distinct adjacent cells
whose wall lists have the invariant length 4: no error, and each cell's wall
facing the other is cleared. -/
lemma rwbc_eq (A B : Cell) (hAw : A.walls.length = 4) (hBw : B.walls.length = 4)
    (hoff : (B.row - A.row, B.col - A.col) ∈ directionOffsets)
    (hadj : (B.row, B.col) ∈ A.neighbors) :
    A.remove_wall_between_cell B false =
      (none,
       { A with walls := A.walls.set (facingIndexD A (B.row, B.col)) false },
       { B with walls := B.walls.set (facingIndexD B (A.row, A.col)) false }) := by
  have hmem : (B.get_row, B.get_column) ∈ A.neighbors := hadj
  have hgr : B.get_row = B.row := rfl
  have hgc : B.get_column = B.col := rfl
  simp only [directionOffsets, List.mem_cons, List.mem_singleton,
    List.not_mem_nil, or_false, Prod.mk.injEq] at hoff
  simp only [Cell.remove_wall_between_cell, Bool.false_eq_true, if_false, if_pos hmem]
  rcases hoff with ⟨hr, hc⟩ | ⟨hr, hc⟩ | ⟨hr, hc⟩ | ⟨hr, hc⟩
  · -- B is north of A
    rw [if_neg (by omega : ¬ A.col - B.get_column ≠ 0),
      (by omega : (1 : Int) - (A.row - B.get_row) = 0),
      (by omega : (1 : Int) + (A.row - B.get_row) = 2),
      remove_wall_ok hAw (by omega) (by omega), remove_wall_ok hBw (by omega) (by omega)]
    simp [facingIndexD, facingIndex, hr, hc, show A.row - B.row = 1 by omega,
      show A.col - B.col = 0 by omega]
  · -- B is east of A
    rw [if_pos (by omega : A.col - B.get_column ≠ 0),
      (by omega : (2 : Int) + (A.col - B.get_column) = 1),
      (by omega : (2 : Int) - (A.col - B.get_column) = 3),
      remove_wall_ok hAw (by omega) (by omega), remove_wall_ok hBw (by omega) (by omega)]
    simp [facingIndexD, facingIndex, hr, hc, show A.row - B.row = 0 by omega,
      show A.col - B.col = -1 by omega]
  · -- B is south of A
    rw [if_neg (by omega : ¬ A.col - B.get_column ≠ 0),
      (by omega : (1 : Int) - (A.row - B.get_row) = 2),
      (by omega : (1 : Int) + (A.row - B.get_row) = 0),
      remove_wall_ok hAw (by omega) (by omega), remove_wall_ok hBw (by omega) (by omega)]
    simp [facingIndexD, facingIndex, hr, hc, show A.row - B.row = -1 by omega,
      show A.col - B.col = 0 by omega]
  · -- B is west of A
    rw [if_pos (by omega : A.col - B.get_column ≠ 0),
      (by omega : (2 : Int) + (A.col - B.get_column) = 3),
      (by omega : (2 : Int) - (A.col - B.get_column) = 1),
      remove_wall_ok hAw (by omega) (by omega), remove_wall_ok hBw (by omega) (by omega)]
    simp [facingIndexD, facingIndex, hr, hc, show A.row - B.row = 0 by omega,
      show A.col - B.col = 1 by omega]

lemma facingIndexD_eq_wallIndex {A B : Cell}
    (hoff : (B.row - A.row, B.col - A.col) ∈ directionOffsets) :
    facingIndexD A (B.row, B.col) = selfWallIndex A B ∧
    facingIndexD B (A.row, A.col) = otherWallIndex A B := by
  simp only [directionOffsets, List.mem_cons, List.mem_singleton,
    List.not_mem_nil, or_false, Prod.mk.injEq] at hoff
  rcases hoff with ⟨hr, hc⟩ | ⟨hr, hc⟩ | ⟨hr, hc⟩ | ⟨hr, hc⟩ <;>
    constructor <;>
      simp [facingIndexD, facingIndex, selfWallIndex, otherWallIndex, hr, hc,
        show A.row - B.row = -(B.row - A.row) by ring,
        show A.col - B.col = -(B.col - A.col) by ring]

/-- C1: for distinct adjacent cells `A`, `B` (the coordinates of `B` occur in
the neighbor list `A` precomputed for some grid), `A.remove_wall_between_cell B`
succeeds, the wall of `A` facing `B` and the wall of `B` facing `A` become
false, and (by `List.set`) every other wall entry of both cells is exactly as
before the call. -/
theorem remove_wall_between_cell_clears_facing_walls
    (A B : Cell) (w h : Int)
    (hAn : A.neighbors = neighborList A.row A.col w h)
    (hAw : A.walls.length = 4) (hBw : B.walls.length = 4)
    (hadj : (B.row, B.col) ∈ A.neighbors) :
    facingIndexD A (B.row, B.col) < 4 ∧ facingIndexD B (A.row, A.col) < 4 ∧
    (A.remove_wall_between_cell B false).1 = none ∧
    (A.remove_wall_between_cell B false).2.1.walls
      = A.walls.set (facingIndexD A (B.row, B.col)) false ∧
    (A.remove_wall_between_cell B false).2.2.walls
      = B.walls.set (facingIndexD B (A.row, A.col)) false := by
  have hoff : (B.row - A.row, B.col - A.col) ∈ directionOffsets := by
    simpa using (of_mem_neighborList (hAn ▸ hadj)).1
  rw [rwbc_eq A B hAw hBw hoff hadj]
  exact ⟨facingIndexD_lt4 (by simpa using hoff),
    facingIndexD_lt4 (by simpa using offsets_symm hoff), rfl, rfl, rfl⟩

theorem remove_wall_between_cell_clears_facing_walls_witness :
    (((Cell.init 0 0 5 5).row, (Cell.init 0 0 5 5).col) ∈ (Cell.init 1 0 5 5).neighbors) ∧
    (facingIndexD (Cell.init 1 0 5 5) ((Cell.init 0 0 5 5).row, (Cell.init 0 0 5 5).col) < 4 ∧
     facingIndexD (Cell.init 0 0 5 5) ((Cell.init 1 0 5 5).row, (Cell.init 1 0 5 5).col) < 4 ∧
     ((Cell.init 1 0 5 5).remove_wall_between_cell (Cell.init 0 0 5 5) false).1 = none ∧
     ((Cell.init 1 0 5 5).remove_wall_between_cell (Cell.init 0 0 5 5) false).2.1.walls
       = (Cell.init 1 0 5 5).walls.set
           (facingIndexD (Cell.init 1 0 5 5) ((Cell.init 0 0 5 5).row, (Cell.init 0 0 5 5).col)) false ∧
     ((Cell.init 1 0 5 5).remove_wall_between_cell (Cell.init 0 0 5 5) false).2.2.walls
       = (Cell.init 0 0 5 5).walls.set
           (facingIndexD (Cell.init 0 0 5 5) ((Cell.init 1 0 5 5).row, (Cell.init 1 0 5 5).col)) false) :=
  ⟨by decide,
   remove_wall_between_cell_clears_facing_walls (Cell.init 1 0 5 5) (Cell.init 0 0 5 5)
     5 5 rfl rfl rfl (by decide)⟩

/-- C2: on distinct adjacent cells the source's index arithmetic is exactly
`self.walls[2 + col_diff]` / `other.walls[2 - col_diff]` for horizontal
adjacency and `self.walls[1 - row_diff]` / `other.walls[1 + row_diff]` for
vertical adjacency, and the four cases land on the direction table
(East 1 / West 3, West 3 / East 1, South 2 / North 0, North 0 / South 2). -/
theorem remove_wall_between_cell_index_table
    (A B : Cell) (w h : Int)
    (hAn : A.neighbors = neighborList A.row A.col w h)
    (hAw : A.walls.length = 4) (hBw : B.walls.length = 4)
    (hadj : (B.row, B.col) ∈ A.neighbors) :
    A.remove_wall_between_cell B false =
      (none,
       { A with walls := A.walls.set (selfWallIndex A B) false },
       { B with walls := B.walls.set (otherWallIndex A B) false }) ∧
    ((A.col - B.col = -1 ∧ selfWallIndex A B = 1 ∧ otherWallIndex A B = 3) ∨
     (A.col - B.col = 1 ∧ selfWallIndex A B = 3 ∧ otherWallIndex A B = 1) ∨
     (A.row - B.row = -1 ∧ selfWallIndex A B = 2 ∧ otherWallIndex A B = 0) ∨
     (A.row - B.row = 1 ∧ selfWallIndex A B = 0 ∧ otherWallIndex A B = 2)) := by
  have hoff : (B.row - A.row, B.col - A.col) ∈ directionOffsets := by
    simpa using (of_mem_neighborList (hAn ▸ hadj)).1
  obtain ⟨hs, ho⟩ := facingIndexD_eq_wallIndex hoff
  refine ⟨by rw [rwbc_eq A B hAw hBw hoff hadj, hs, ho], ?_⟩
  rw [← hs, ← ho]
  simp only [directionOffsets, List.mem_cons, List.mem_singleton,
    List.not_mem_nil, or_false, Prod.mk.injEq] at hoff
  rcases hoff with ⟨hr, hc⟩ | ⟨hr, hc⟩ | ⟨hr, hc⟩ | ⟨hr, hc⟩
  · refine .inr (.inr (.inr ⟨by omega, ?_, ?_⟩)) <;>
      simp [facingIndexD, facingIndex, hr, hc,
        show A.row - B.row = 1 by omega, show A.col - B.col = 0 by omega]
  · refine .inl ⟨by omega, ?_, ?_⟩ <;>
      simp [facingIndexD, facingIndex, hr, hc,
        show A.row - B.row = 0 by omega, show A.col - B.col = -1 by omega]
  · refine .inr (.inr (.inl ⟨by omega, ?_, ?_⟩)) <;>
      simp [facingIndexD, facingIndex, hr, hc,
        show A.row - B.row = -1 by omega, show A.col - B.col = 0 by omega]
  · refine .inr (.inl ⟨by omega, ?_, ?_⟩) <;>
      simp [facingIndexD, facingIndex, hr, hc,
        show A.row - B.row = 0 by omega, show A.col - B.col = 1 by omega]

theorem remove_wall_between_cell_index_table_witness :
    (((Cell.init 1 4 5 5).row, (Cell.init 1 4 5 5).col) ∈ (Cell.init 1 3 5 5).neighbors) ∧
    ((Cell.init 1 3 5 5).remove_wall_between_cell (Cell.init 1 4 5 5) false =
      (none,
       { Cell.init 1 3 5 5 with
          walls := (Cell.init 1 3 5 5).walls.set
            (selfWallIndex (Cell.init 1 3 5 5) (Cell.init 1 4 5 5)) false },
       { Cell.init 1 4 5 5 with
          walls := (Cell.init 1 4 5 5).walls.set
            (otherWallIndex (Cell.init 1 3 5 5) (Cell.init 1 4 5 5)) false }) ∧
     (((Cell.init 1 3 5 5).col - (Cell.init 1 4 5 5).col = -1 ∧
       selfWallIndex (Cell.init 1 3 5 5) (Cell.init 1 4 5 5) = 1 ∧
       otherWallIndex (Cell.init 1 3 5 5) (Cell.init 1 4 5 5) = 3) ∨
      ((Cell.init 1 3 5 5).col - (Cell.init 1 4 5 5).col = 1 ∧
       selfWallIndex (Cell.init 1 3 5 5) (Cell.init 1 4 5 5) = 3 ∧
       otherWallIndex (Cell.init 1 3 5 5) (Cell.init 1 4 5 5) = 1) ∨
      ((Cell.init 1 3 5 5).row - (Cell.init 1 4 5 5).row = -1 ∧
       selfWallIndex (Cell.init 1 3 5 5) (Cell.init 1 4 5 5) = 2 ∧
       otherWallIndex (Cell.init 1 3 5 5) (Cell.init 1 4 5 5) = 0) ∨
      ((Cell.init 1 3 5 5).row - (Cell.init 1 4 5 5).row = 1 ∧
       selfWallIndex (Cell.init 1 3 5 5) (Cell.init 1 4 5 5) = 0 ∧
       otherWallIndex (Cell.init 1 3 5 5) (Cell.init 1 4 5 5) = 2))) :=
  ⟨by decide,
   remove_wall_between_cell_index_table (Cell.init 1 3 5 5) (Cell.init 1 4 5 5)
     5 5 rfl rfl rfl (by decide)⟩

/-- C9: on distinct adjacent in-bounds cells of one grid, removing the wall
from `A`'s side and from `B`'s side produce the same final pair of cell
states: the operation is symmetric in its two participants. -/
theorem remove_wall_between_cell_commutes
    (A B : Cell) (w h : Int)
    (hAn : A.neighbors = neighborList A.row A.col w h)
    (hBn : B.neighbors = neighborList B.row B.col w h)
    (hAw : A.walls.length = 4) (hBw : B.walls.length = 4)
    (hadj : (B.row, B.col) ∈ A.neighbors)
    (hAr : 0 ≤ A.row ∧ A.row < h) (hAc : 0 ≤ A.col ∧ A.col < w) :
    (A.remove_wall_between_cell B false).1 = none ∧
    (B.remove_wall_between_cell A false).1 = none ∧
    (A.remove_wall_between_cell B false).2.1 = (B.remove_wall_between_cell A false).2.2 ∧
    (A.remove_wall_between_cell B false).2.2 = (B.remove_wall_between_cell A false).2.1 := by
  have hoff : (B.row - A.row, B.col - A.col) ∈ directionOffsets := by
    simpa using (of_mem_neighborList (hAn ▸ hadj)).1
  have hoff2 := offsets_symm hoff
  have hadj2 : (A.row, A.col) ∈ B.neighbors := by
    rw [hBn]
    have hb : 0 ≤ B.col + (A.col - B.col) ∧ B.col + (A.col - B.col) < w ∧
        0 ≤ B.row + (A.row - B.row) ∧ B.row + (A.row - B.row) < h := by
      constructor
      · omega
      · exact ⟨by omega, by omega, by omega⟩
    have := (mem_neighborList_iff B.row B.col w h (A.row - B.row) (A.col - B.col)
      hoff2).mpr hb
    rw [show B.row + (A.row - B.row) = A.row by omega,
      show B.col + (A.col - B.col) = A.col by omega] at this
    exact this
  rw [rwbc_eq A B hAw hBw hoff hadj, rwbc_eq B A hBw hAw hoff2 hadj2]
  exact ⟨rfl, rfl, rfl, rfl⟩

theorem remove_wall_between_cell_commutes_witness :
    (((Cell.init 0 0 5 5).row, (Cell.init 0 0 5 5).col) ∈ (Cell.init 1 0 5 5).neighbors) ∧
    (0 ≤ (Cell.init 1 0 5 5).row ∧ (Cell.init 1 0 5 5).row < 5) ∧
    (0 ≤ (Cell.init 1 0 5 5).col ∧ (Cell.init 1 0 5 5).col < 5) ∧
    (((Cell.init 1 0 5 5).remove_wall_between_cell (Cell.init 0 0 5 5) false).1 = none ∧
     ((Cell.init 0 0 5 5).remove_wall_between_cell (Cell.init 1 0 5 5) false).1 = none ∧
     ((Cell.init 1 0 5 5).remove_wall_between_cell (Cell.init 0 0 5 5) false).2.1
       = ((Cell.init 0 0 5 5).remove_wall_between_cell (Cell.init 1 0 5 5) false).2.2 ∧
     ((Cell.init 1 0 5 5).remove_wall_between_cell (Cell.init 0 0 5 5) false).2.2
       = ((Cell.init 0 0 5 5).remove_wall_between_cell (Cell.init 1 0 5 5) false).2.1) :=
  ⟨by decide, by decide, by decide,
   remove_wall_between_cell_commutes (Cell.init 1 0 5 5) (Cell.init 0 0 5 5)
     5 5 rfl rfl rfl rfl (by decide) (by decide) (by decide)⟩

/-- C3: `remove_wall_between_cell` on the same object fails with
`InvalidArgument`; on a cell absent from the neighbor list it fails with
`NotAdjacent`; in both cases the returned pair of cell states is exactly the
input pair, so no wall of either cell was mutated (both preconditions are
checked before any mutation). -/
theorem remove_wall_between_cell_rejections
    (A B : Cell) (hne : ((B.row, B.col) ∈ A.neighbors) = False) :
    A.remove_wall_between_cell A true = (some .invalidArgument, A, A) ∧
    A.remove_wall_between_cell B false = (some .notAdjacent, A, B) := by
  constructor
  · simp [Cell.remove_wall_between_cell]
  · simp [Cell.remove_wall_between_cell, Cell.get_row, Cell.get_column, hne]

theorem remove_wall_between_cell_rejections_witness :
    ((((Cell.init 2 2 5 5).row, (Cell.init 2 2 5 5).col) ∈ (Cell.init 0 0 5 5).neighbors)
        = False) ∧
    ((Cell.init 0 0 5 5).remove_wall_between_cell (Cell.init 0 0 5 5) true
        = (some .invalidArgument, Cell.init 0 0 5 5, Cell.init 0 0 5 5) ∧
     (Cell.init 0 0 5 5).remove_wall_between_cell (Cell.init 2 2 5 5) false
        = (some .notAdjacent, Cell.init 0 0 5 5, Cell.init 2 2 5 5)) :=
  ⟨by decide,
   remove_wall_between_cell_rejections (Cell.init 0 0 5 5) (Cell.init 2 2 5 5) (by decide)⟩

/-- C4 counterexample: the source constructor performs no geometry check.
At `(row, column, width, height) = (0, 0, 0, 0)` — where the claim demands an
`InvalidGeometry` failure because `width ≤ 0` — `Cell.__init__` succeeds and
returns an ordinary cell (empty neighbor list, default state), while the
spec-modelled defensive constructor rejects the same input. -/
theorem cell_init_unchecked_geometry :
    Cell.newSpec 0 0 0 0 = .error .invalidGeometry ∧
    Cell.init 0 0 0 0 =
      { row := 0, col := 0, neighbors := [], visited := false,
        walls := [true, true, true, true] } := by
  constructor
  · rfl
  · decide

/-- C4 amended: construction never fails; with `width ≤ 0` or `height ≤ 0`
it merely produces a cell with an empty neighbor list, unvisited and with
all four walls present. -/
theorem cell_init_total_degenerate (row col w h : Int) (hdeg : w ≤ 0 ∨ h ≤ 0) :
    (Cell.init row col w h).neighbors = [] ∧
    (Cell.init row col w h).is_visited = false ∧
    (Cell.init row col w h).get_walls = [true, true, true, true] := by
  refine ⟨?_, rfl, rfl⟩
  simp only [Cell.init, neighborList, directionOffsets]
  rcases hdeg with hw | hh <;>
    simp <;> omega

theorem cell_init_total_degenerate_witness :
    ((0 : Int) ≤ 0 ∨ (0 : Int) ≤ 0) ∧
    ((Cell.init 0 0 0 0).neighbors = [] ∧
     (Cell.init 0 0 0 0).is_visited = false ∧
     (Cell.init 0 0 0 0).get_walls = [true, true, true, true]) :=
  ⟨Or.inl le_rfl, cell_init_total_degenerate 0 0 0 0 (Or.inl le_rfl)⟩

/-- C10: `remove_wall(i)` with `-4 ≤ i ≤ -1` signals no error — Python list
assignment resolves the negative index to `walls[4 + i]` and clears it — and
an index outside `[-4, 4)` is exactly what produces the out-of-range
failure. -/
theorem remove_wall_negative_index (c : Cell) (i j : Int)
    (h4 : c.walls.length = 4) (h0 : -4 ≤ i) (h1 : i ≤ -1) (hj : j < -4 ∨ 4 ≤ j) :
    c.remove_wall i = .ok { c with walls := c.walls.set (4 + i).toNat false } ∧
    c.remove_wall j = .error .indexOutOfRange := by
  constructor
  · rw [Cell.remove_wall, pySetIndex_neg c.walls i false h4 h0 h1]
  · rw [Cell.remove_wall, pySetIndex_err c.walls j false h4 hj]

theorem remove_wall_negative_index_witness :
    ((Cell.init 1 3 5 5).walls.length = 4) ∧ ((-4 : Int) ≤ -1) ∧ ((-1 : Int) ≤ -1) ∧
    ((4 : Int) < -4 ∨ (4 : Int) ≤ 4) ∧
    ((Cell.init 1 3 5 5).remove_wall (-1)
        = .ok { Cell.init 1 3 5 5 with
                  walls := (Cell.init 1 3 5 5).walls.set (4 + (-1) : Int).toNat false } ∧
     (Cell.init 1 3 5 5).remove_wall 4 = .error .indexOutOfRange) :=
  ⟨rfl, by decide, by decide, Or.inr (by decide),
   remove_wall_negative_index (Cell.init 1 3 5 5) (-1) 4 rfl (by decide) (by decide)
     (Or.inr (by decide))⟩

/-- C6: `set_walls` rejects with `InvalidArgument` any list whose length is
not 4 or that contains a non-boolean element (returning the error before any
state change), and accepts a 4-element boolean list, storing exactly it. -/
theorem set_walls_validation (c : Cell) (l : List PyObj) (bs : List Bool)
    (hrej : l.length ≠ 4 ∨ (l.all PyObj.isBool) = false) (hbs : bs.length = 4) :
    c.set_walls l = .error .invalidArgument ∧
    c.set_walls (bs.map PyObj.pybool) = .ok { c with walls := bs } := by
  constructor
  · rcases hrej with hlen | hbool
    · simp [Cell.set_walls, hlen]
    · by_cases hl : l.length = 4 <;> simp [Cell.set_walls, hl, hbool]
  · have hall : (bs.map PyObj.pybool).all PyObj.isBool = true := by
      refine List.all_eq_true.mpr fun x hx => ?_
      obtain ⟨b, hb, rfl⟩ := List.mem_map.mp hx
      rfl
    have hfm : (bs.map PyObj.pybool).filterMap PyObj.asBool = bs := by
      rw [List.filterMap_map]
      exact List.filterMap_some bs
    simp [Cell.set_walls, hbs, hall, hfm]

theorem set_walls_validation_witness :
    (([PyObj.pyint 3] : List PyObj).length ≠ 4 ∨
      (([PyObj.pyint 3] : List PyObj).all PyObj.isBool) = false) ∧
    (([true, false, true, false] : List Bool).length = 4) ∧
    ((Cell.init 1 3 5 5).set_walls [PyObj.pyint 3] = .error .invalidArgument ∧
     (Cell.init 1 3 5 5).set_walls ([true, false, true, false].map PyObj.pybool)
       = .ok { Cell.init 1 3 5 5 with walls := [true, false, true, false] }) :=
  ⟨Or.inl (by decide), rfl,
   set_walls_validation (Cell.init 1 3 5 5) [PyObj.pyint 3] [true, false, true, false]
     (Or.inl (by decide)) rfl⟩

/-- C7: a freshly constructed in-bounds cell has at most 4 neighbors, each
neighbor coordinate is in bounds and at grid distance exactly 1 from the
cell, the cell is unvisited, and all four walls are present. -/
theorem fresh_cell_properties (row col w h : Int)
    (_hw : 1 ≤ w) (_hh : 1 ≤ h) (hrow : 0 ≤ row ∧ row < h) (hcol : 0 ≤ col ∧ col < w) :
    (Cell.init row col w h).get_neighbors.length ≤ 4 ∧
    ((Cell.init row col w h).get_neighbors.all fun p =>
        decide (0 ≤ p.1 ∧ p.1 < h ∧ 0 ≤ p.2 ∧ p.2 < w ∧
          (p.1 - row).natAbs + (p.2 - col).natAbs = 1)) = true ∧
    (Cell.init row col w h).is_visited = false ∧
    (Cell.init row col w h).get_walls = [true, true, true, true] := by
  refine ⟨?_, ?_, rfl, rfl⟩
  · have hlen : (neighborList row col w h).length ≤ directionOffsets.length := by
      rw [neighborList, List.length_map]
      exact List.length_filter_le _ _
    simpa [Cell.get_neighbors, Cell.init, directionOffsets] using hlen
  · rw [List.all_eq_true]
    intro p hp
    obtain ⟨hoff, hb⟩ := of_mem_neighborList (r := row) (c := col) (w := w) (h := h) hp
    simp only [directionOffsets, List.mem_cons, List.mem_singleton,
      List.not_mem_nil, or_false, Prod.mk.injEq] at hoff
    rw [decide_eq_true_eq]
    rcases hoff with ⟨h1, h2⟩ | ⟨h1, h2⟩ | ⟨h1, h2⟩ | ⟨h1, h2⟩ <;>
      refine ⟨by omega, by omega, by omega, by omega, by omega⟩

theorem fresh_cell_properties_witness :
    ((1 : Int) ≤ 5) ∧ ((1 : Int) ≤ 5) ∧ ((0 : Int) ≤ 1 ∧ (1 : Int) < 5) ∧
    ((0 : Int) ≤ 0 ∧ (0 : Int) < 5) ∧
    ((Cell.init 1 0 5 5).get_neighbors.length ≤ 4 ∧
     ((Cell.init 1 0 5 5).get_neighbors.all fun p =>
        decide (0 ≤ p.1 ∧ p.1 < 5 ∧ 0 ≤ p.2 ∧ p.2 < 5 ∧
          (p.1 - 1).natAbs + (p.2 - 0).natAbs = 1)) = true ∧
     (Cell.init 1 0 5 5).is_visited = false ∧
     (Cell.init 1 0 5 5).get_walls = [true, true, true, true]) :=
  ⟨by decide, by decide, by decide, by decide,
   fresh_cell_properties 1 0 5 5 (by decide) (by decide) (by decide) (by decide)⟩

lemma remove_wall_geom {c c2 : Cell} {i : Int} (hok : c.remove_wall i = .ok c2) :
    geomUnchanged c c2 := by
  rw [Cell.remove_wall] at hok
  cases hps : pySetIndex c.walls i false with
  | ok ws => rw [hps] at hok; injection hok with hok; subst hok; exact ⟨rfl, rfl, rfl⟩
  | error e => rw [hps] at hok; cases hok

lemma rwbc_geom (c other : Cell) (same : Bool) :
    geomUnchanged c (c.remove_wall_between_cell other same).2.1 ∧
    geomUnchanged other (c.remove_wall_between_cell other same).2.2 := by
  have triv : ∀ d : Cell, geomUnchanged d d := fun d => ⟨rfl, rfl, rfl⟩
  cases same with
  | true => exact ⟨triv c, triv other⟩
  | false =>
    rw [Cell.remove_wall_between_cell]
    rw [if_neg (by simp : ¬ (false = true))]
    by_cases hmem : (other.get_row, other.get_column) ∈ c.neighbors
    · rw [if_pos hmem]
      by_cases hcd : c.col - other.get_column ≠ 0
      · rw [if_pos hcd]
        cases hr1 : c.remove_wall (2 + (c.col - other.get_column)) with
        | error e => exact ⟨triv c, triv other⟩
        | ok c2 =>
          cases hr2 : other.remove_wall (2 - (c.col - other.get_column)) with
          | error e => exact ⟨remove_wall_geom hr1, triv other⟩
          | ok other2 => exact ⟨remove_wall_geom hr1, remove_wall_geom hr2⟩
      · rw [if_neg hcd]
        cases hr1 : c.remove_wall (1 - (c.row - other.get_row)) with
        | error e => exact ⟨triv c, triv other⟩
        | ok c2 =>
          cases hr2 : other.remove_wall (1 + (c.row - other.get_row)) with
          | error e => exact ⟨remove_wall_geom hr1, triv other⟩
          | ok other2 => exact ⟨remove_wall_geom hr1, remove_wall_geom hr2⟩
    · rw [if_neg hmem]
      exact ⟨triv c, triv other⟩

/-- C8: no operation of the interface changes a cell's row, column, or
precomputed neighbor list: the visit operations, a successful `set_walls`,
a successful `remove_wall`, and both participants of
`remove_wall_between_cell` (on every control path, error or not) keep the
construction-time geometry; only `visited` and `walls` are ever mutated. -/
theorem geometry_immutable (c other c1 c2 : Cell) (l : List PyObj) (i : Int) (same : Bool)
    (h1 : c.set_walls l = .ok c1) (h2 : c.remove_wall i = .ok c2) :
    geomUnchanged c c.make_visited ∧ geomUnchanged c c.make_unvisited ∧
    geomUnchanged c c1 ∧ geomUnchanged c c2 ∧
    geomUnchanged c (c.remove_wall_between_cell other same).2.1 ∧
    geomUnchanged other (c.remove_wall_between_cell other same).2.2 := by
  refine ⟨⟨rfl, rfl, rfl⟩, ⟨rfl, rfl, rfl⟩, ?_, remove_wall_geom h2,
    (rwbc_geom c other same).1, (rwbc_geom c other same).2⟩
  rw [Cell.set_walls] at h1
  split_ifs at h1
  injection h1 with h1
  subst h1
  exact ⟨rfl, rfl, rfl⟩

theorem geometry_immutable_witness :
    ((Cell.init 1 3 5 5).set_walls ([true, false, true, false].map PyObj.pybool)
        = .ok { Cell.init 1 3 5 5 with walls := [true, false, true, false] }) ∧
    ((Cell.init 1 3 5 5).remove_wall 2
        = .ok { Cell.init 1 3 5 5 with walls := [true, true, false, true] }) ∧
    (geomUnchanged (Cell.init 1 3 5 5) (Cell.init 1 3 5 5).make_visited ∧
     geomUnchanged (Cell.init 1 3 5 5) (Cell.init 1 3 5 5).make_unvisited ∧
     geomUnchanged (Cell.init 1 3 5 5)
       { Cell.init 1 3 5 5 with walls := [true, false, true, false] } ∧
     geomUnchanged (Cell.init 1 3 5 5)
       { Cell.init 1 3 5 5 with walls := [true, true, false, true] } ∧
     geomUnchanged (Cell.init 1 3 5 5)
       ((Cell.init 1 3 5 5).remove_wall_between_cell (Cell.init 1 4 5 5) false).2.1 ∧
     geomUnchanged (Cell.init 1 4 5 5)
       ((Cell.init 1 3 5 5).remove_wall_between_cell (Cell.init 1 4 5 5) false).2.2) :=
  ⟨by decide, by decide,
   geometry_immutable (Cell.init 1 3 5 5) (Cell.init 1 4 5 5)
     { Cell.init 1 3 5 5 with walls := [true, false, true, false] }
     { Cell.init 1 3 5 5 with walls := [true, true, false, true] }
     ([true, false, true, false].map PyObj.pybool) 2 false (by decide) (by decide)⟩

lemma wallToward_north (c : Cell) :
    c.wallToward (c.row + -1, c.col + 0) = c.walls.getD 0 true := by
  have h1 : c.row + -1 - c.row = -1 := by ring
  have h2 : c.col + 0 - c.col = 0 := by ring
  simp [Cell.wallToward, facingIndex, h1, h2]

lemma wallToward_east (c : Cell) :
    c.wallToward (c.row + 0, c.col + 1) = c.walls.getD 1 true := by
  have h1 : c.row + 0 - c.row = 0 := by ring
  have h2 : c.col + 1 - c.col = 1 := by ring
  simp [Cell.wallToward, facingIndex, h1, h2]

lemma wallToward_south (c : Cell) :
    c.wallToward (c.row + 1, c.col + 0) = c.walls.getD 2 true := by
  have h1 : c.row + 1 - c.row = 1 := by ring
  have h2 : c.col + 0 - c.col = 0 := by ring
  simp [Cell.wallToward, facingIndex, h1, h2]

lemma wallToward_west (c : Cell) :
    c.wallToward (c.row + 0, c.col + -1) = c.walls.getD 3 true := by
  have h1 : c.row + 0 - c.row = 0 := by ring
  have h2 : c.col + -1 - c.col = -1 := by ring
  simp [Cell.wallToward, facingIndex, h1, h2]

set_option maxHeartbeats 2000000 in
/-- C5: for every cell with its precomputed neighbor list and any wall
configuration, `get_accessible_neighbors` equals `get_neighbors` filtered to
the coordinates whose facing wall entry is false, and in particular is a
subsequence of `get_neighbors` (hence in the fixed North, East, South, West
order). -/
theorem accessible_neighbors_characterization (c : Cell) (w h : Int)
    (hn : c.neighbors = neighborList c.row c.col w h) :
    c.get_accessible_neighbors
      = c.get_neighbors.filter (fun p => ! c.wallToward p) ∧
    c.get_accessible_neighbors.Sublist c.get_neighbors := by
  have hm : ∀ y x : Int, (y, x) ∈ directionOffsets →
      (((c.row + y, c.col + x) ∈ c.neighbors) ↔
        (0 ≤ c.col + x ∧ c.col + x < w ∧ 0 ≤ c.row + y ∧ c.row + y < h)) := by
    intro y x hyx
    rw [hn]
    exact mem_neighborList_iff c.row c.col w h y x hyx
  have hm0 := hm (-1) 0 (by decide)
  have hm1 := hm 0 1 (by decide)
  have hm2 := hm 1 0 (by decide)
  have hm3 := hm 0 (-1) (by decide)
  have ht0 := wallToward_north c
  have ht1 := wallToward_east c
  have ht2 := wallToward_south c
  have ht3 := wallToward_west c
  have hadd1 : (0 : Nat) + 1 = 1 := rfl
  have hadd2 : (1 : Nat) + 1 = 2 := rfl
  have hadd3 : (2 : Nat) + 1 = 3 := rfl
  have heq : c.get_accessible_neighbors
      = c.get_neighbors.filter (fun p => ! c.wallToward p) := by
    simp only [Cell.get_accessible_neighbors, directionOffsets, accessibleLoop,
      List.append_nil, hadd1, hadd2, hadd3, hm0, hm1, hm2, hm3]
    simp only [Cell.get_neighbors, hn, neighborList, directionOffsets,
      List.filter_cons, List.filter_nil, decide_eq_true_eq]
    by_cases hb0 : (0 ≤ c.col + 0 ∧ c.col + 0 < w ∧ 0 ≤ c.row + -1 ∧ c.row + -1 < h) <;>
    by_cases hb1 : (0 ≤ c.col + 1 ∧ c.col + 1 < w ∧ 0 ≤ c.row + 0 ∧ c.row + 0 < h) <;>
    by_cases hb2 : (0 ≤ c.col + 0 ∧ c.col + 0 < w ∧ 0 ≤ c.row + 1 ∧ c.row + 1 < h) <;>
    by_cases hb3 : (0 ≤ c.col + -1 ∧ c.col + -1 < w ∧ 0 ≤ c.row + 0 ∧ c.row + 0 < h) <;>
    by_cases hw0 : c.walls.getD 0 true = false <;>
    by_cases hw1 : c.walls.getD 1 true = false <;>
    by_cases hw2 : c.walls.getD 2 true = false <;>
    by_cases hw3 : c.walls.getD 3 true = false <;>
      simp only [hb0, hb1, hb2, hb3, ht0, ht1, ht2, ht3, Bool.not_eq_true',
        hw0, hw1, hw2, hw3, true_and, false_and, and_true, and_false,
        if_true, if_false, ite_true, ite_false, List.map_cons, List.map_nil,
        List.filter_cons, List.filter_nil, List.append_nil, List.nil_append,
        List.singleton_append, List.cons_append, not_false_iff, eq_self_iff_true,
        Bool.true_eq_false, Bool.false_eq_true] <;>
      (first
        | rfl
        | (split_ifs <;>
            first
              | rfl
              | (exfalso; omega)
              | (simp only [hb0, hb1, hb2, hb3, ht0, ht1, ht2, ht3, Bool.not_eq_true',
                  hw0, hw1, hw2, hw3, true_and, false_and, and_true, and_false,
                  if_true, if_false, ite_true, ite_false, List.map_cons, List.map_nil,
                  List.filter_cons, List.filter_nil, List.append_nil, List.nil_append,
                  List.singleton_append, List.cons_append, not_false_iff,
                  eq_self_iff_true, Bool.true_eq_false, Bool.false_eq_true])))
  exact ⟨heq, by rw [heq]; exact List.filter_sublist _⟩

theorem accessible_neighbors_characterization_witness :
    (({ Cell.init 1 3 5 5 with walls := [true, false, true, false] } : Cell).neighbors
      = neighborList ({ Cell.init 1 3 5 5 with
            walls := [true, false, true, false] } : Cell).row
          ({ Cell.init 1 3 5 5 with walls := [true, false, true, false] } : Cell).col 5 5) ∧
    (({ Cell.init 1 3 5 5 with
          walls := [true, false, true, false] } : Cell).get_accessible_neighbors
        = ({ Cell.init 1 3 5 5 with
              walls := [true, false, true, false] } : Cell).get_neighbors.filter
            (fun p => ! ({ Cell.init 1 3 5 5 with
                walls := [true, false, true, false] } : Cell).wallToward p) ∧
     ({ Cell.init 1 3 5 5 with
          walls := [true, false, true, false] } : Cell).get_accessible_neighbors.Sublist
       ({ Cell.init 1 3 5 5 with
            walls := [true, false, true, false] } : Cell).get_neighbors) :=
  ⟨rfl, accessible_neighbors_characterization
    { Cell.init 1 3 5 5 with walls := [true, false, true, false] } 5 5 rfl⟩
